import Mathlib

/-!
Verification of the particle morph engine of `OrganicParticlesGL.tsx`.

The CPU-side geometry sampling, buffer building and idle-fade logic are
embedded over `ℚ` (the source's float arithmetic read as exact rational
arithmetic).  Calls to `Math.random()` are modelled as oracle parameters
(`j` for per-point jitter draws, `js` for shuffle index draws), universally
quantified in the theorems.  JavaScript's `k % 0 = NaN` (and the resulting
`undefined` array read) is modelled by `Option`: `none` is an undefined
particle position.  The GPU vertex shader is embedded over `ℝ` in a later
section.
-/

namespace Particles

/-- A rounded rectangle `{x, y, w, h, r}` in stage coordinates, as consumed by
`ctaTargets` and `insideRoundRect` in the source. -/
structure RRect where
  x : ℚ
  y : ℚ
  w : ℚ
  h : ℚ
  r : ℚ

/-- Direct translation of the source's `insideRoundRect(x, y, r)` helper
(`OrganicParticlesGL.tsx`, lines 559-567). -/
def insideRoundRect (x y : ℚ) (rc : RRect) : Bool :=
  let rx := max (rc.x + rc.r) (min (rc.x + rc.w - rc.r) x)
  let ry := max (rc.y + rc.r) (min (rc.y + rc.h - rc.r) y)
  if rc.x + rc.r ≤ x ∧ x ≤ rc.x + rc.w - rc.r ∧ rc.y ≤ y ∧ y ≤ rc.y + rc.h then
    true
  else if rc.y + rc.r ≤ y ∧ y ≤ rc.y + rc.h - rc.r ∧ rc.x ≤ x ∧ x ≤ rc.x + rc.w then
    true
  else
    let cx := if x < rc.x + rc.r then rc.x + rc.r
      else if rc.x + rc.w - rc.r < x then rc.x + rc.w - rc.r else rx
    let cy := if y < rc.y + rc.r then rc.y + rc.r
      else if rc.y + rc.h - rc.r < y then rc.y + rc.h - rc.r else ry
    decide ((x - cx) ^ 2 + (y - cy) ^ 2 ≤ rc.r ^ 2)

/-- Number of iterations of the loop `for (v = a; v <= b; v += step)`
(for positive `step`). -/
def gridCount (a b step : ℚ) : ℕ :=
  if a ≤ b then (⌊(b - a) / step⌋).toNat + 1 else 0

/-- The values visited by the loop `for (v = a; v <= b; v += step)`. -/
def gridPts (a b step : ℚ) : List ℚ :=
  (List.range (gridCount a b step)).map fun (i : ℕ) => a + step * (i : ℚ)

/-- The grid candidates scanned by `ctaTargets` (outer loop over `y`, inner
loop over `x`, spacing 5, half-spacing inset). -/
def ctaCandidates (rc : RRect) : List (ℚ × ℚ) :=
  (gridPts (rc.y + 5 / 2) (rc.y + rc.h - 5 / 2) 5).flatMap fun gy =>
    (gridPts (rc.x + 5 / 2) (rc.x + rc.w - 5 / 2) 5).map fun gx => (gx, gy)

/-- The points emitted by `ctaTargets` before the final shuffle: a candidate
is kept when it passes `insideRoundRect`; the jitter draw `j c` (the value of
`(rand(-2.2, 2.2), rand(-2.2, 2.2))` at that point) is applied, and kept only
if containment re-validates, otherwise the unjittered grid point is pushed
(`OrganicParticlesGL.tsx`, lines 32-46). -/
def ctaPoints (j : ℚ × ℚ → ℚ × ℚ) (rc : RRect) : List (ℚ × ℚ) :=
  ((ctaCandidates rc).filter fun c => insideRoundRect c.1 c.2 rc).map fun c =>
    if insideRoundRect (c.1 + (j c).1) (c.2 + (j c).2) rc then
      (c.1 + (j c).1, c.2 + (j c).2)
    else c

/-- One swap of the Fisher-Yates shuffle `shuffleXY` (point-pair granularity). -/
def swapPair {α : Type} (l : List α) (i k : ℕ) : List α :=
  match l[i]?, l[k]? with
  | some a, some b => (l.set i b).set k a
  | _, _ => l

/-- The `shuffleXY` Fisher-Yates loop: `i` runs from `n - 1` down to `1`, and
`js i` is the random partner index drawn for step `i`. -/
def fyShuffle {α : Type} (js : ℕ → ℕ) (l : List α) : List α :=
  (List.range (l.length - 1)).foldl
    (fun acc t => swapPair acc (l.length - 1 - t) (js (l.length - 1 - t))) l

/-- The source's `ctaTargets` memo: jittered grid points inside the CTA
rounded rect, shuffled (`OrganicParticlesGL.tsx`, lines 28-49). -/
def ctaTargets (j : ℚ × ℚ → ℚ × ℚ) (js : ℕ → ℕ) (rc : RRect) : List (ℚ × ℚ) :=
  fyShuffle js (ctaPoints j rc)

/-- The source reads `chipT[(k % (chipT.length / 2)) * 2]` from a flat float
array; on the point list this is indexing by `k` modulo the sample count.
JavaScript evaluates `k % 0` to `NaN` and the array read to `undefined`,
modelled here as `none`. -/
def pickMod (cl : List (ℚ × ℚ)) (k : ℕ) : Option (ℚ × ℚ) :=
  if cl.length = 0 then none else cl[k % cl.length]?

/-- The actor-assignment loops of `fillBuffers` (`OrganicParticlesGL.tsx`,
lines 191-223): `floor(pool / numChips)` slots per chip written in chip
order, then any remaining slots filled from the last chip, indexed by the
global write index. -/
def chipAssign (chips : List (List (ℚ × ℚ))) (pool : ℕ) : List (Option (ℚ × ℚ)) :=
  let numChips := max 1 chips.length
  let per := pool / numChips
  ((List.range numChips).flatMap fun i =>
    (List.range per).map fun k => pickMod (chips.getD i []) k) ++
  ((List.range (pool - numChips * per)).map fun t =>
    pickMod (chips.getD (chips.length - 1) []) (numChips * per + t))

/-- `fillBuffers` with its not-ready guard (`OrganicParticlesGL.tsx`, lines
180-186): when the CTA target set or the per-chip target list is empty the
buffers are left unfilled (`none`) and `buffersReady` stays `false`. -/
def fillBuffers (cta : List (ℚ × ℚ)) (chips : List (List (ℚ × ℚ))) (pool : ℕ) :
    Option (List (Option (ℚ × ℚ))) :=
  if cta.length = 0 ∨ chips.length = 0 then none else some (chipAssign chips pool)

/-- The observable GL side effects of one `render` callback. -/
structure FrameActions where
  cleared : Bool
  drew : Bool
deriving DecidableEq

/-- The draw-guard structure of the `render` callback (`OrganicParticlesGL.tsx`,
lines 278-322): if `buffersReadyRef` is false the callback returns before
`gl.clear` and `gl.drawArrays`. -/
def renderStep (buffersReady : Bool) : FrameActions :=
  if buffersReady then ⟨true, true⟩ else ⟨false, false⟩

/-- The mutable refs feeding the idle-fade logic of the `render` callback:
`lastProgressRef` and `lastActiveMsRef`. -/
structure FadeState where
  lastProgress : ℚ
  lastActiveMs : ℚ

/-- `visibleAlpha` (`OrganicParticlesGL.tsx`, line 327): fade-out of the whole
canvas as progress approaches 1. -/
def visibleAlpha (p : ℚ) : ℚ := if p < 0.95 then 1 else max 0 (1 - (p - 0.95) / 0.05)

/-- `baseAlpha` (line 328): hidden until the start threshold 0.002. -/
def baseAlpha (p : ℚ) : ℚ := if 0.002 < p then visibleAlpha p else 0

/-- One execution of the idle-fade tail of the `render` callback
(`OrganicParticlesGL.tsx`, lines 324-344), as a pure step
`(state, progress, now) -> (state, activityAlpha, finalAlpha)`.
A progress delta above the 0.0005 epsilon refreshes `lastActiveMs`;
after 150 ms of idleness the activity opacity ramps down linearly over
600 ms; the canvas opacity is `baseAlpha * activityAlpha` clamped to [0,1]. -/
def fadeStep (st : FadeState) (p nowMs : ℚ) : FadeState × ℚ × ℚ :=
  let lastActive := if 0.0005 < |p - st.lastProgress| then nowMs else st.lastActiveMs
  let idleMs := nowMs - lastActive
  let activityAlpha := if 150 < idleMs then 1 - min 1 ((idleMs - 150) / 600) else 1
  let finalAlpha := max 0 (min 1 (baseAlpha p * activityAlpha))
  (⟨p, lastActive⟩, activityAlpha, finalAlpha)

end Particles

/-!
Embedding of the vertex shader `VERT_SRC` (`OrganicParticlesGL.tsx`, lines
365-525) over `ℝ`.  Each GLSL local variable becomes a named definition;
vectors are split into scalar X/Y components.  GLSL built-ins are translated
literally (`clamp`, `mix`, `smoothstep`, `step`, `length`, `normalize`,
`fract`-based hash noise).  The chip-burst loop over `uChipCenters[i]` /
`uChipRadii[i]` for `i < uChipCount` becomes a fold over the uniform list of
(center, radius) pairs.
-/

namespace VertSrc

noncomputable section

/-- GLSL `clamp(x, lo, hi)`. -/
def glClamp (x lo hi : ℝ) : ℝ := min (max x lo) hi

/-- GLSL `mix(a, b, t) = a*(1-t) + b*t`. -/
def glMix (a b t : ℝ) : ℝ := a * (1 - t) + b * t

/-- GLSL `smoothstep(e0, e1, x)`. -/
def glSmoothstep (e0 e1 x : ℝ) : ℝ :=
  let t := glClamp ((x - e0) / (e1 - e0)) 0 1
  t * t * (3 - 2 * t)

/-- GLSL `step(edge, x)`: 0 when `x < edge`, else 1. -/
def glStep (edge x : ℝ) : ℝ := if x < edge then 0 else 1

/-- GLSL `length(vec2(x, y))`. -/
def glLength (x y : ℝ) : ℝ := Real.sqrt (x ^ 2 + y ^ 2)

/-- GLSL `normalize(vec2(x, y))` (componentwise division by the length). -/
def glNormalize (x y : ℝ) : ℝ × ℝ := (x / glLength x y, y / glLength x y)

/-- Shader `hash(n) = fract(sin(n)*43758.5453123)`. -/
def hash (n : ℝ) : ℝ := Int.fract (Real.sin n * 43758.5453123)

/-- Shader `n2(x) = hash(dot(x, vec2(127.1, 311.7)))`. -/
def n2 (x y : ℝ) : ℝ := hash (x * 127.1 + y * 311.7)

/-- The per-frame uniforms of `VERT_SRC`.  `chips` carries the first
`uChipCount` entries of `uChipCenters`/`uChipRadii` as (center, radius)
pairs. -/
structure Frame where
  uT : ℝ
  uSplit : ℝ
  uTick : ℝ
  uNumChips : ℝ
  uLate : ℝ
  uGStart0 : ℝ
  uGStart1 : ℝ
  uGStart2 : ℝ
  uGEnd0 : ℝ
  uGEnd1 : ℝ
  uGEnd2 : ℝ
  uGCount0 : ℝ
  uGCount1 : ℝ
  uGCount2 : ℝ
  chips : List ((ℝ × ℝ) × ℝ)

/-- The per-vertex attributes of `VERT_SRC` plus `float(gl_VertexID)`. -/
structure Vert where
  aStartX : ℝ
  aStartY : ℝ
  aChipX : ℝ
  aChipY : ℝ
  aCTAX : ℝ
  aCTAY : ℝ
  aCloudX : ℝ
  aCloudY : ℝ
  vertexID : ℝ

/-- `float seed = n2(aStart);` -/
def seed (v : Vert) : ℝ := n2 v.aStartX v.aStartY

/-- `float t1 = clamp(uT/0.22, 0.0, 1.0);` -/
def t1 (f : Frame) : ℝ := glClamp (f.uT / 0.22) 0 1

/-- `float t2 = clamp((uT-0.22)/0.63, 0.0, 1.0);` (computed but unused by the
shader). -/
def t2 (f : Frame) : ℝ := glClamp ((f.uT - 0.22) / 0.63) 0 1

/-- `float tExplode = clamp((uT - 0.68)/0.10, 0.0, 1.0);` -/
def tExplode (f : Frame) : ℝ := glClamp ((f.uT - 0.68) / 0.10) 0 1

/-- `float tCTAphase = clamp((uT - 0.70)/0.21, 0.0, 1.0);` — the
destination-coalescence weight, shared by every group. -/
def tCTAphase (f : Frame) : ℝ := glClamp ((f.uT - 0.70) / 0.21) 0 1

/-- `float ang = seed*6.2831853;` -/
def ang (v : Vert) : ℝ := seed v * 6.2831853

/-- `float burst = pow(t1, 2.0) * (80.0 + seed*60.0);` -/
def burstAmt (f : Frame) (v : Vert) : ℝ := t1 f ^ 2 * (80 + seed v * 60)

/-- `vec2 burstPos = aStart + dir*burst + (seed-0.5)*10.0*t1;` (X). -/
def burstPos0X (f : Frame) (v : Vert) : ℝ :=
  v.aStartX + Real.cos (ang v) * burstAmt f v + (seed v - 0.5) * 10 * t1 f

/-- `vec2 burstPos = aStart + dir*burst + (seed-0.5)*10.0*t1;` (Y). -/
def burstPos0Y (f : Frame) (v : Vert) : ℝ :=
  v.aStartY + Real.sin (ang v) * burstAmt f v + (seed v - 0.5) * 10 * t1 f

/-- Accumulator of the chip-burst loop: `burstAura`, `auraMax`, `auraVec`. -/
structure AuraAcc where
  burstAura : ℝ
  auraMax : ℝ
  auraVecX : ℝ
  auraVecY : ℝ

/-- One iteration of the chip-burst loop (lines 415-431). -/
def auraStep (v : Vert) (tExpl : ℝ) (acc : AuraAcc) (chip : (ℝ × ℝ) × ℝ) : AuraAcc :=
  let d := glLength (v.aStartX - chip.1.1) (v.aStartY - chip.1.2)
  let within := glStep d (chip.2 * 1.2)
  let life := 1 - glSmoothstep 0 0.80 tExpl
  let strength := within * life
  let acc1 :=
    if acc.auraMax < strength then
      let dirC := glNormalize (v.aStartX - chip.1.1 + 0.0001) (v.aStartY - chip.1.2 + 0.0001)
      { acc with auraMax := strength, auraVecX := dirC.1 * strength, auraVecY := dirC.2 * strength }
    else acc
  { acc1 with burstAura := max acc1.burstAura strength }

/-- The chip-burst loop over the first `uChipCount` chips. -/
def aura (f : Frame) (v : Vert) : AuraAcc :=
  f.chips.foldl (auraStep v (tExplode f)) ⟨0, 0, 0, 0⟩

/-- `burstPos += auraVec * 82.0;` (X). -/
def burstPos1X (f : Frame) (v : Vert) : ℝ := burstPos0X f v + (aura f v).auraVecX * 82

/-- `burstPos += auraVec * 82.0;` (Y). -/
def burstPos1Y (f : Frame) (v : Vert) : ℝ := burstPos0Y f v + (aura f v).auraVecY * 82

/-- `float chips = max(1.0, uNumChips);` -/
def chipsCount (f : Frame) : ℝ := max 1 f.uNumChips

/-- `float actorsPerChip = max(1.0, floor(uSplit / chips));` -/
def actorsPerChip (f : Frame) : ℝ := max 1 ((⌊f.uSplit / chipsCount f⌋ : ℤ) : ℝ)

/-- `float chipIndex = floor(float(gl_VertexID) / actorsPerChip);` -/
def chipIndex (f : Frame) (v : Vert) : ℝ := ((⌊v.vertexID / actorsPerChip f⌋ : ℤ) : ℝ)

/-- `float g0count = max(1.0, uGCount.x);` -/
def g0count (f : Frame) : ℝ := max 1 f.uGCount0

/-- `float g1count = max(1.0, uGCount.y);` -/
def g1count (f : Frame) : ℝ := max 1 f.uGCount1

/-- `float g2count = max(1.0, uGCount.z);` -/
def g2count (f : Frame) : ℝ := max 1 f.uGCount2

/-- `float g0endIdx = g0count - 1.0;` -/
def g0endIdx (f : Frame) : ℝ := g0count f - 1

/-- `float g1endIdx = g0count + g1count - 1.0;` -/
def g1endIdx (f : Frame) : ℝ := g0count f + g1count f - 1

/-- The group-window start selected for this chip (default group 2, overridden
by the `chipIndex <= g0endIdx` / `<= g1endIdx` branches, lines 449-452). -/
def gStartSel (f : Frame) (v : Vert) : ℝ :=
  if chipIndex f v ≤ g0endIdx f then f.uGStart0
  else if chipIndex f v ≤ g1endIdx f then f.uGStart1
  else f.uGStart2

/-- The group-window end selected for this chip. -/
def gEndSel (f : Frame) (v : Vert) : ℝ :=
  if chipIndex f v ≤ g0endIdx f then f.uGEnd0
  else if chipIndex f v ≤ g1endIdx f then f.uGEnd1
  else f.uGEnd2

/-- `float pre = 1.0 - smoothstep(gStart, gStart + 0.06, uT);` — the
pre-window cloud-bias amount (lines 453-455). -/
def preAmt (f : Frame) (v : Vert) : ℝ :=
  1 - glSmoothstep (gStartSel f v) (gStartSel f v + 0.06) f.uT

/-- `burstPos = mix(burstPos, aTargetCloud, pre * 0.85);` (X). -/
def burstPosX (f : Frame) (v : Vert) : ℝ :=
  glMix (burstPos1X f v) v.aCloudX (preAmt f v * 0.85)

/-- `burstPos = mix(burstPos, aTargetCloud, pre * 0.85);` (Y). -/
def burstPosY (f : Frame) (v : Vert) : ℝ :=
  glMix (burstPos1Y f v) v.aCloudY (preAmt f v * 0.85)

/-- The group-local chip index (lines 458-460; the two sequential `if`s). -/
def groupIndexSel (f : Frame) (v : Vert) : ℝ :=
  if g1endIdx f < chipIndex f v then chipIndex f v - (g0count f + g1count f)
  else if g0endIdx f < chipIndex f v then chipIndex f v - g0count f
  else chipIndex f v

/-- The chip count of the selected group, floored at 1 (lines 461-463). -/
def gCountSel (f : Frame) (v : Vert) : ℝ :=
  max 1 (if chipIndex f v ≤ g0endIdx f then g0count f
    else if chipIndex f v ≤ g1endIdx f then g1count f else g2count f)

/-- `float window = max(0.0001, (gEnd - gStart));` -/
def windowWidth (gS gE : ℝ) : ℝ := max 0.0001 (gE - gS)

/-- `float baseS = gStart + (groupIndex / gCount) * window;` -/
def chipBaseS (gS gE gi gc : ℝ) : ℝ := gS + gi / gc * windowWidth gS gE

/-- `float baseE = gStart + ((groupIndex + 1.0) / gCount) * window;` -/
def chipBaseE (gS gE gi gc : ℝ) : ℝ := gS + (gi + 1) / gc * windowWidth gS gE

/-- `float s = mix(baseS, baseE, uLate);` — the chip's effective window
start, shifted late inside its per-chip slot. -/
def chipS (gS gE gi gc late : ℝ) : ℝ :=
  glMix (chipBaseS gS gE gi gc) (chipBaseE gS gE gi gc) late

/-- `float eWin = min(gEnd, baseE + 0.04);` — the chip's effective window
end. -/
def chipEWin (gS gE gi gc : ℝ) : ℝ := min gE (chipBaseE gS gE gi gc + 0.04)

/-- `float local = clamp((uT - s) / max(0.0001, (eWin - s)), 0.0, 1.0);` -/
def chipLocal (gS gE gi gc late t : ℝ) : ℝ :=
  glClamp ((t - chipS gS gE gi gc late) /
    max 0.0001 (chipEWin gS gE gi gc - chipS gS gE gi gc late)) 0 1

/-- `float tChipPhase = smoothstep(0.0, 1.0, local);` — the per-chip
cluster-coalescence weight, idle drift excluded. -/
def tChipPhase (gS gE gi gc late t : ℝ) : ℝ :=
  glSmoothstep 0 1 (chipLocal gS gE gi gc late t)

/-- The chip's effective window start, wired to the selected group window. -/
def sSel (f : Frame) (v : Vert) : ℝ :=
  chipS (gStartSel f v) (gEndSel f v) (groupIndexSel f v) (gCountSel f v) f.uLate

/-- The chip's effective window end, wired to the selected group window. -/
def eWinSel (f : Frame) (v : Vert) : ℝ :=
  chipEWin (gStartSel f v) (gEndSel f v) (groupIndexSel f v) (gCountSel f v)

/-- The cluster-coalescence weight, wired to the selected group window. -/
def tChipPhaseSel (f : Frame) (v : Vert) : ℝ :=
  tChipPhase (gStartSel f v) (gEndSel f v) (groupIndexSel f v) (gCountSel f v) f.uLate f.uT

/-- `float idleAmp = 0.015 * (1.0 - tExplode) * (1.0 - tCTAphase);` -/
def idleAmp (f : Frame) : ℝ := 0.015 * (1 - tExplode f) * (1 - tCTAphase f)

/-- `float idle = idleAmp * sin(uTick*0.8 + chipIndex*1.37);` -/
def idle (f : Frame) (v : Vert) : ℝ :=
  idleAmp f * Real.sin (f.uTick * 0.8 + chipIndex f v * 1.37)

/-- `float tChipPhaseIdle = clamp(tChipPhase + idle, 0.0, 1.0);` -/
def tChipPhaseIdle (f : Frame) (v : Vert) : ℝ :=
  glClamp (tChipPhaseSel f v + idle f v) 0 1

/-- `float edgeBias = smoothstep(0.0, 0.6, tChipPhase);` -/
def edgeBias (f : Frame) (v : Vert) : ℝ := glSmoothstep 0 0.6 (tChipPhaseSel f v)

/-- `float chipJamp = 2.4 * (1.0 - tExplode) * (1.0 - tCTAphase);` -/
def chipJamp (f : Frame) : ℝ := 2.4 * (1 - tExplode f) * (1 - tCTAphase f)

/-- `vec2 jChip = vec2(sin(uTick*1.31 + seed*4.07), cos(uTick*1.53 + seed*3.71)) * chipJamp;` (X). -/
def jChipX (f : Frame) (v : Vert) : ℝ :=
  Real.sin (f.uTick * 1.31 + seed v * 4.07) * chipJamp f

/-- The Y component of `jChip`. -/
def jChipY (f : Frame) (v : Vert) : ℝ :=
  Real.cos (f.uTick * 1.53 + seed v * 3.71) * chipJamp f

/-- `float ctaJamp = 1.1 * (1.0 - tCTAphase);` -/
def ctaJamp (f : Frame) : ℝ := 1.1 * (1 - tCTAphase f)

/-- `vec2 jCTA = vec2(sin(uTick*1.87 + seed*2.31), cos(uTick*2.11 + seed*5.13)) * ctaJamp;` (X). -/
def jCTAX (f : Frame) (v : Vert) : ℝ :=
  Real.sin (f.uTick * 1.87 + seed v * 2.31) * ctaJamp f

/-- The Y component of `jCTA`. -/
def jCTAY (f : Frame) (v : Vert) : ℝ :=
  Real.cos (f.uTick * 2.11 + seed v * 5.13) * ctaJamp f

/-- `vec2 tgtChip = mix(burstPos, tChipJ, tChipPhaseIdle);` (X), with
`tChipJ = tChip + jChip`. -/
def tgtChipX (f : Frame) (v : Vert) : ℝ :=
  glMix (burstPosX f v) (v.aChipX + jChipX f v) (tChipPhaseIdle f v)

/-- The Y component of `tgtChip`. -/
def tgtChipY (f : Frame) (v : Vert) : ℝ :=
  glMix (burstPosY f v) (v.aChipY + jChipY f v) (tChipPhaseIdle f v)

/-- `float explodeFactor = tExplode * (1.0 - 0.6 * tCTAphase);` -/
def explodeFactor (f : Frame) : ℝ := tExplode f * (1 - 0.6 * tCTAphase f)

/-- `vec2 chipToCloud = mix(tgtChip, tCloud, explodeFactor);` (X). -/
def chipToCloudX (f : Frame) (v : Vert) : ℝ :=
  glMix (tgtChipX f v) v.aCloudX (explodeFactor f)

/-- The Y component of `chipToCloud`. -/
def chipToCloudY (f : Frame) (v : Vert) : ℝ :=
  glMix (tgtChipY f v) v.aCloudY (explodeFactor f)

/-- `vec2 tgt = mix(chipToCloud, tCTAJ, tCTAphase);` (X), with
`tCTAJ = tCTA + jCTA`. -/
def tgtX (f : Frame) (v : Vert) : ℝ :=
  glMix (chipToCloudX f v) (v.aCTAX + jCTAX f v) (tCTAphase f)

/-- The Y component of `tgt`. -/
def tgtY (f : Frame) (v : Vert) : ℝ :=
  glMix (chipToCloudY f v) (v.aCTAY + jCTAY f v) (tCTAphase f)

/-- `max(max(tChipPhaseIdle, tExplode), tCTAphase)` — the dominating phase
weight of the final blend. -/
def maxWeight (f : Frame) (v : Vert) : ℝ :=
  max (max (tChipPhaseIdle f v) (tExplode f)) (tCTAphase f)

/-- `pos = mix(burstPos, tgt, max(max(tChipPhaseIdle, tExplode), tCTAphase));` (X). -/
def posPreX (f : Frame) (v : Vert) : ℝ :=
  glMix (burstPosX f v) (tgtX f v) (maxWeight f v)

/-- The Y component of the blended position before the outline bias. -/
def posPreY (f : Frame) (v : Vert) : ℝ :=
  glMix (burstPosY f v) (tgtY f v) (maxWeight f v)

/-- `pos += normalize(vec2(0.0001, 0.0001) + (tgt - pos)) * (1.0 - edgeBias) * 2.0;` (X)
— the actor branch's final position. -/
def posActorX (f : Frame) (v : Vert) : ℝ :=
  posPreX f v +
    (glNormalize (0.0001 + (tgtX f v - posPreX f v)) (0.0001 + (tgtY f v - posPreY f v))).1 *
      ((1 - edgeBias f v) * 2)

/-- The Y component of the actor branch's final position. -/
def posActorY (f : Frame) (v : Vert) : ℝ :=
  posPreY f v +
    (glNormalize (0.0001 + (tgtX f v - posPreX f v)) (0.0001 + (tgtY f v - posPreY f v))).2 *
      ((1 - edgeBias f v) * 2)

/-- `float a = uTick*0.15 + seed*6.2831853;` (cloud branch). -/
def cloudAng (f : Frame) (v : Vert) : ℝ := f.uTick * 0.15 + seed v * 6.2831853

/-- `float breathe = 1.0 + 0.06*sin(uTick*0.33 + seed*2.0);` (cloud branch). -/
def breathe (f : Frame) (v : Vert) : ℝ := 1 + 0.06 * Real.sin (f.uTick * 0.33 + seed v * 2.0)

/-- The cloud branch's position (X). -/
def posCloudX (f : Frame) (v : Vert) : ℝ :=
  v.aStartX + Real.cos (cloudAng f v) * 6 * breathe f v

/-- The cloud branch's position (Y). -/
def posCloudY (f : Frame) (v : Vert) : ℝ :=
  v.aStartY + Real.sin (cloudAng f v) * 6 * breathe f v

/-- The shader's final layout-space position (X): actor branch when
`float(gl_VertexID) < uSplit`, else cloud branch. -/
def posX (f : Frame) (v : Vert) : ℝ :=
  if v.vertexID < f.uSplit then posActorX f v else posCloudX f v

/-- The shader's final layout-space position (Y). -/
def posY (f : Frame) (v : Vert) : ℝ :=
  if v.vertexID < f.uSplit then posActorY f v else posCloudY f v

/-- `float d = length(aTargetCTA - pos);` — distance from the final position
to the destination target. -/
def distCTA (f : Frame) (v : Vert) : ℝ :=
  glLength (v.aCTAX - posX f v) (v.aCTAY - posY f v)

/-- `float alpha = clamp(1.0 - d/140.0, 0.85, 1.0);` — the per-vertex alpha. -/
def alphaOut (f : Frame) (v : Vert) : ℝ := glClamp (1 - distCTA f v / 140) 0.85 1

end

end VertSrc

/-! Concrete inputs used to instantiate the theorems below. -/

namespace Ex

/-- A jitter oracle that always draws 0. -/
def jZero : ℚ × ℚ → ℚ × ℚ := fun _ => (0, 0)

/-- A shuffle oracle that always draws partner index 0. -/
def jsZero : ℕ → ℕ := fun _ => 0

/-- A non-degenerate rounded rectangle (positive area, radius at most half the
height) that is thinner than the 5 px sampling grid. -/
def rcThin : Particles.RRect := ⟨0, 0, 100, 4, 1⟩

/-- A 5-by-5 sharp-cornered rectangle: exactly one grid candidate. -/
def rcFive : Particles.RRect := ⟨0, 0, 5, 5, 0⟩

/-- A CTA-sized rounded rectangle with the corner radius at half the height,
like the button rects the component receives. -/
def rcCTA : Particles.RRect := ⟨0, 0, 220, 44, 22⟩

/-- Two singleton chip sample sets. -/
def chipsTwo : List (List (ℚ × ℚ)) := [[(1, 2)], [(3, 4)]]

/-- A one-chip frame at `progress = 1` (group windows as uploaded by `render`:
`uGStart = (0, 0.14, 0.28)`, `uGEnd = (0.14, 0.28, 0.42)`, `uLate = 0.6`). -/
def fOne : VertSrc.Frame :=
  ⟨1, 1, 0, 1, 0.6, 0, 0.14, 0.28, 0.14, 0.28, 0.42, 1, 1, 1, []⟩

/-- The same frame at `progress = 0`, wall clock `uTick = 0`. -/
def fZero : VertSrc.Frame :=
  ⟨0, 1, 0, 1, 0.6, 0, 0.14, 0.28, 0.14, 0.28, 0.42, 1, 1, 1, []⟩

/-- A vertex with all attributes at the origin. -/
def vZero : VertSrc.Vert := ⟨0, 0, 0, 0, 0, 0, 0, 0, 0⟩

/-- A vertex starting at the origin with its cloud target at `(100, 0)` and its
destination target far away at `(1000, 0)`. -/
def vFar : VertSrc.Vert := ⟨0, 0, 0, 0, 1000, 0, 100, 0, 0⟩

end Ex

namespace Particles

lemma length_swapPair {α : Type} (l : List α) (i k : ℕ) :
    (swapPair l i k).length = l.length := by
  unfold swapPair
  cases h1 : l[i]? <;> cases h2 : l[k]? <;> simp

lemma mem_swapPair {α : Type} {l : List α} {i k : ℕ} {x : α}
    (hx : x ∈ swapPair l i k) : x ∈ l := by
  unfold swapPair at hx
  cases h1 : l[i]? with
  | none => rw [h1] at hx; exact hx
  | some a =>
    cases h2 : l[k]? with
    | none => rw [h1, h2] at hx; exact hx
    | some b =>
      rw [h1, h2] at hx
      rcases List.mem_or_eq_of_mem_set hx with hx1 | rfl
      · rcases List.mem_or_eq_of_mem_set hx1 with hx2 | rfl
        · exact hx2
        · obtain ⟨hk, rfl⟩ := List.getElem?_eq_some.mp h2
          exact List.getElem_mem hk
      · obtain ⟨hi, rfl⟩ := List.getElem?_eq_some.mp h1
        exact List.getElem_mem hi

lemma length_foldl_swapPair {α : Type} (sched : List ℕ) (f g : ℕ → ℕ) (l : List α) :
    (sched.foldl (fun acc t => swapPair acc (f t) (g t)) l).length = l.length := by
  induction sched generalizing l with
  | nil => rfl
  | cons t ts ih =>
    rw [List.foldl_cons, ih (swapPair l (f t) (g t)), length_swapPair]

lemma mem_foldl_swapPair {α : Type} {sched : List ℕ} {f g : ℕ → ℕ} {l : List α} {x : α}
    (hx : x ∈ sched.foldl (fun acc t => swapPair acc (f t) (g t)) l) : x ∈ l := by
  induction sched generalizing l with
  | nil => exact hx
  | cons t ts ih =>
    rw [List.foldl_cons] at hx
    exact mem_swapPair (ih hx)

lemma length_fyShuffle {α : Type} (js : ℕ → ℕ) (l : List α) :
    (fyShuffle js l).length = l.length :=
  length_foldl_swapPair (List.range (l.length - 1))
    (fun t => l.length - 1 - t) (fun t => js (l.length - 1 - t)) l

lemma mem_fyShuffle {α : Type} {js : ℕ → ℕ} {l : List α} {x : α}
    (hx : x ∈ fyShuffle js l) : x ∈ l := by
  exact mem_foldl_swapPair hx

lemma rangeGrid_length {α : Type} (C q : ℕ) (f : ℕ → ℕ → α) :
    ((List.range C).flatMap fun i => (List.range q).map (f i)).length = C * q := by
  induction C with
  | zero => simp
  | succ n ih =>
    rw [List.range_succ, List.flatMap_append, List.length_append, ih]
    simp [Nat.succ_mul]

lemma rangeGrid_getElem {α : Type} (C q : ℕ) (f : ℕ → ℕ → α) (i k : ℕ)
    (hi : i < C) (hk : k < q) :
    ((List.range C).flatMap fun i => (List.range q).map (f i))[i * q + k]? = some (f i k) := by
  induction C with
  | zero => omega
  | succ n ih =>
    rw [List.range_succ, List.flatMap_append]
    rcases Nat.lt_succ_iff_lt_or_eq.mp hi with h | rfl
    · rw [List.getElem?_append_left, ih h]
      rw [rangeGrid_length]
      have h1 : i * q + k < (i + 1) * q := by
        rw [Nat.succ_mul]; omega
      have h2 : (i + 1) * q ≤ n * q := Nat.mul_le_mul_right q h
      omega
    · rw [List.getElem?_append_right (by rw [rangeGrid_length]; omega)]
      rw [rangeGrid_length]
      simp only [List.flatMap_cons, List.flatMap_nil, List.append_nil]
      rw [Nat.add_sub_cancel_left, List.getElem?_map, List.getElem?_range hk]
      rfl

lemma pickMod_isSome_mem (cl : List (ℚ × ℚ)) (k : ℕ) (h : cl ≠ []) :
    ∃ x, pickMod cl k = some x ∧ x ∈ cl := by
  have hlen : cl.length ≠ 0 := by simpa [List.length_eq_zero] using h
  have hmod : k % cl.length < cl.length := Nat.mod_lt _ (Nat.pos_of_ne_zero hlen)
  refine ⟨cl[k % cl.length], ?_, List.getElem_mem hmod⟩
  simp [pickMod, hlen, List.getElem?_eq_getElem hmod]

lemma chipAssign_eq (chips : List (List (ℚ × ℚ))) (pool : ℕ) (hC : chips ≠ []) :
    chipAssign chips pool =
    ((List.range chips.length).flatMap fun i =>
      (List.range (pool / chips.length)).map fun k => pickMod (chips.getD i []) k) ++
    ((List.range (pool - chips.length * (pool / chips.length))).map fun t =>
      pickMod (chips.getD (chips.length - 1) []) (chips.length * (pool / chips.length) + t)) := by
  have hpos : 1 ≤ chips.length := List.length_pos.mpr hC
  have hmax : max 1 chips.length = chips.length := Nat.max_eq_right hpos
  simp only [chipAssign, hmax]

lemma chipAssign_length (chips : List (List (ℚ × ℚ))) (pool : ℕ) (hC : chips ≠ []) :
    (chipAssign chips pool).length = pool := by
  have hle : chips.length * (pool / chips.length) ≤ pool := by
    rw [Nat.mul_comm]; exact Nat.div_mul_le_self pool chips.length
  rw [chipAssign_eq chips pool hC]
  simp only [List.length_append, rangeGrid_length, List.length_map, List.length_range]
  omega

lemma chipAssign_getElem_main (chips : List (List (ℚ × ℚ))) (pool : ℕ) (hC : chips ≠ [])
    (i k : ℕ) (hi : i < chips.length) (hk : k < pool / chips.length) :
    (chipAssign chips pool)[i * (pool / chips.length) + k]? =
      some (pickMod (chips.getD i []) k) := by
  rw [chipAssign_eq chips pool hC]
  rw [List.getElem?_append_left, rangeGrid_getElem _ _ _ i k hi hk]
  rw [rangeGrid_length]
  have h1 : i * (pool / chips.length) + k < (i + 1) * (pool / chips.length) := by
    rw [Nat.succ_mul]; omega
  have h2 : (i + 1) * (pool / chips.length) ≤ chips.length * (pool / chips.length) :=
    Nat.mul_le_mul_right _ hi
  omega

lemma chipAssign_getElem_rest (chips : List (List (ℚ × ℚ))) (pool : ℕ) (hC : chips ≠ [])
    (w : ℕ) (hw1 : chips.length * (pool / chips.length) ≤ w) (hw2 : w < pool) :
    (chipAssign chips pool)[w]? = some (pickMod (chips.getD (chips.length - 1) []) w) := by
  rw [chipAssign_eq chips pool hC]
  rw [List.getElem?_append_right (by rw [rangeGrid_length]; omega)]
  rw [rangeGrid_length, List.getElem?_map, List.getElem?_range (by omega)]
  rw [Option.map_some']
  have harith : chips.length * (pool / chips.length) +
      (w - chips.length * (pool / chips.length)) = w := by omega
  rw [harith]

lemma chipAssign_total (chips : List (List (ℚ × ℚ))) (pool : ℕ) (hC : chips ≠ [])
    (hne : ∀ cl ∈ chips, cl ≠ []) (idx : ℕ) (hidx : idx < pool) :
    ∃ x, (chipAssign chips pool)[idx]? = some (some x) ∧ ∃ cl ∈ chips, x ∈ cl := by
  have hpos : 1 ≤ chips.length := List.length_pos.mpr hC
  by_cases hmain : idx < chips.length * (pool / chips.length)
  · have hq : 0 < pool / chips.length := by
      rcases Nat.eq_zero_or_pos (pool / chips.length) with h | h
      · rw [h, Nat.mul_zero] at hmain; omega
      · exact h
    have hi : idx / (pool / chips.length) < chips.length := by
      rw [Nat.div_lt_iff_lt_mul hq]; exact hmain
    have hk : idx % (pool / chips.length) < pool / chips.length := Nat.mod_lt _ hq
    have hsplit : idx / (pool / chips.length) * (pool / chips.length) +
        idx % (pool / chips.length) = idx := by
      rw [Nat.mul_comm]; exact Nat.div_add_mod idx (pool / chips.length)
    have hget := chipAssign_getElem_main chips pool hC _ _ hi hk
    rw [hsplit] at hget
    have hmem : chips.getD (idx / (pool / chips.length)) [] ∈ chips := by
      rw [List.getD_eq_getElem _ _ hi]; exact List.getElem_mem hi
    obtain ⟨x, hx, hxmem⟩ :=
      pickMod_isSome_mem (chips.getD (idx / (pool / chips.length)) [])
        (idx % (pool / chips.length)) (hne _ hmem)
    exact ⟨x, by rw [hget, hx], ⟨_, hmem, hxmem⟩⟩
  · have hget := chipAssign_getElem_rest chips pool hC idx (by omega) hidx
    have hlast : chips.length - 1 < chips.length := by omega
    have hmem : chips.getD (chips.length - 1) [] ∈ chips := by
      rw [List.getD_eq_getElem _ _ hlast]; exact List.getElem_mem hlast
    obtain ⟨x, hx, hxmem⟩ :=
      pickMod_isSome_mem (chips.getD (chips.length - 1) []) idx (hne _ hmem)
    exact ⟨x, by rw [hget, hx], ⟨_, hmem, hxmem⟩⟩

end Particles

namespace VertSrc

lemma glMix_zero (a b : ℝ) : glMix a b 0 = a := by simp [glMix]

lemma glMix_one (a b : ℝ) : glMix a b 1 = b := by simp [glMix]

lemma glClamp01_nonneg (x : ℝ) : 0 ≤ glClamp x 0 1 :=
  le_min (le_max_right x 0) zero_le_one

lemma glClamp01_le_one (x : ℝ) : glClamp x 0 1 ≤ 1 := min_le_right _ _

lemma glClamp01_of_le {x : ℝ} (h : 1 ≤ x) : glClamp x 0 1 = 1 := by
  rw [glClamp, max_eq_left (le_trans zero_le_one h), min_eq_right h]

lemma glClamp01_of_nonpos {x : ℝ} (h : x ≤ 0) : glClamp x 0 1 = 0 := by
  rw [glClamp, max_eq_right h, min_eq_left zero_le_one]

lemma glClamp01_mono {x y : ℝ} (h : x ≤ y) : glClamp x 0 1 ≤ glClamp y 0 1 :=
  min_le_min (max_le_max h le_rfl) le_rfl

lemma glSmoothstep01 (x : ℝ) :
    glSmoothstep 0 1 x = glClamp x 0 1 * glClamp x 0 1 * (3 - 2 * glClamp x 0 1) := by
  simp [glSmoothstep]

lemma glSmoothstep_one_of {e0 e1 x : ℝ} (h : 1 ≤ (x - e0) / (e1 - e0)) :
    glSmoothstep e0 e1 x = 1 := by
  rw [glSmoothstep]
  show glClamp ((x - e0) / (e1 - e0)) 0 1 * _ * _ = 1
  rw [glClamp01_of_le h]
  ring

lemma glSmoothstep_zero_of {e0 e1 x : ℝ} (h : (x - e0) / (e1 - e0) ≤ 0) :
    glSmoothstep e0 e1 x = 0 := by
  rw [glSmoothstep]
  show glClamp ((x - e0) / (e1 - e0)) 0 1 * _ * _ = 0
  rw [glClamp01_of_nonpos h]
  ring

lemma glSmoothstep01_mono {x y : ℝ} (h : x ≤ y) :
    glSmoothstep 0 1 x ≤ glSmoothstep 0 1 y := by
  rw [glSmoothstep01, glSmoothstep01]
  have ha0 := glClamp01_nonneg x
  have hb1 := glClamp01_le_one y
  have hab := glClamp01_mono h
  nlinarith [mul_nonneg ha0 (sub_nonneg.mpr hab),
    mul_nonneg (sub_nonneg.mpr hab) (sub_nonneg.mpr hb1),
    sq_nonneg (glClamp x 0 1 - glClamp y 0 1), sq_nonneg (glClamp x 0 1 + glClamp y 0 1)]

lemma chipLocal_mono (gS gE gi gc late : ℝ) {t u : ℝ} (h : t ≤ u) :
    chipLocal gS gE gi gc late t ≤ chipLocal gS gE gi gc late u := by
  apply glClamp01_mono
  have hD : (0 : ℝ) < max 0.0001 (chipEWin gS gE gi gc - chipS gS gE gi gc late) :=
    lt_of_lt_of_le (by norm_num) (le_max_left _ _)
  exact (div_le_div_right hD).mpr (by linarith)

lemma chipLocal_at_start (gS gE gi gc late : ℝ) :
    chipLocal gS gE gi gc late (chipS gS gE gi gc late) = 0 := by
  rw [chipLocal, sub_self, zero_div]
  exact glClamp01_of_nonpos le_rfl

lemma chipLocal_at_eWin (gS gE gi gc late : ℝ)
    (hwin : 0.0001 ≤ chipEWin gS gE gi gc - chipS gS gE gi gc late) :
    chipLocal gS gE gi gc late (chipEWin gS gE gi gc) = 1 := by
  rw [chipLocal, max_eq_right hwin,
    div_self (ne_of_gt (lt_of_lt_of_le (by norm_num) hwin))]
  exact glClamp01_of_le le_rfl

lemma glSmoothstep01_at_zero : glSmoothstep 0 1 0 = 0 := by
  norm_num [glSmoothstep, glClamp]

lemma glSmoothstep01_at_one : glSmoothstep 0 1 1 = 1 := by
  norm_num [glSmoothstep, glClamp]

lemma chipLocal_one_of (gS gE gi gc late : ℝ)
    (hs : chipS gS gE gi gc late ≤ 0.9999) (he : chipEWin gS gE gi gc ≤ 1) :
    chipLocal gS gE gi gc late 1 = 1 := by
  rw [chipLocal]
  apply glClamp01_of_le
  rcases le_or_lt 0.0001 (chipEWin gS gE gi gc - chipS gS gE gi gc late) with hc | hc
  · rw [max_eq_right hc, le_div_iff (by linarith)]
    linarith
  · rw [max_eq_left (le_of_lt hc), le_div_iff (by norm_num)]
    linarith

lemma tCTAphase_one {f : Frame} (h : f.uT = 1) : tCTAphase f = 1 := by
  rw [tCTAphase, h]
  apply glClamp01_of_le
  norm_num

lemma tExplode_one {f : Frame} (h : f.uT = 1) : tExplode f = 1 := by
  rw [tExplode, h]
  apply glClamp01_of_le
  norm_num

lemma tCTAphase_zero {f : Frame} (h : f.uT = 0) : tCTAphase f = 0 := by
  rw [tCTAphase, h]
  apply glClamp01_of_nonpos
  norm_num

lemma tExplode_zero {f : Frame} (h : f.uT = 0) : tExplode f = 0 := by
  rw [tExplode, h]
  apply glClamp01_of_nonpos
  norm_num

lemma t1_zero {f : Frame} (h : f.uT = 0) : t1 f = 0 := by
  rw [t1, h]
  apply glClamp01_of_nonpos
  norm_num

lemma chipIndex_zero {f : Frame} {v : Vert} (hv : v.vertexID = 0) : chipIndex f v = 0 := by
  rw [chipIndex, hv, zero_div, Int.floor_zero, Int.cast_zero]

lemma sel_eval {f : Frame} {v : Vert} (hv : v.vertexID = 0) (hc0 : f.uGCount0 = 1) :
    gStartSel f v = f.uGStart0 ∧ gEndSel f v = f.uGEnd0 ∧
    groupIndexSel f v = 0 ∧ gCountSel f v = 1 := by
  have hci : chipIndex f v = 0 := chipIndex_zero hv
  have hg0 : g0endIdx f = 0 := by rw [g0endIdx, g0count, hc0]; norm_num
  have hcond : chipIndex f v ≤ g0endIdx f := by rw [hci, hg0]
  have hg1 : (0 : ℝ) ≤ g1endIdx f := by
    rw [g1endIdx, g0count, g1count, hc0]
    have h1 := le_max_left (1 : ℝ) f.uGCount1
    simp only [max_self]
    linarith
  refine ⟨?_, ?_, ?_, ?_⟩
  · rw [gStartSel, if_pos hcond]
  · rw [gEndSel, if_pos hcond]
  · rw [groupIndexSel, if_neg (by rw [hci]; exact not_lt.mpr hg1),
      if_neg (by rw [hci, hg0]; norm_num)]
    exact hci
  · rw [gCountSel, if_pos hcond, g0count, hc0]
    norm_num

lemma chipS_val : chipS 0 0.14 0 1 0.6 = 0.084 := by
  norm_num [chipS, chipBaseS, chipBaseE, windowWidth, glMix]

lemma chipEWin_val : chipEWin 0 0.14 0 1 = 0.14 := by
  norm_num [chipEWin, chipBaseE, windowWidth]

lemma winSel_val {f : Frame} {v : Vert} (hv : v.vertexID = 0) (hc0 : f.uGCount0 = 1)
    (hgs : f.uGStart0 = 0) (hge : f.uGEnd0 = 0.14) (hl : f.uLate = 0.6) :
    sSel f v = 0.084 ∧ eWinSel f v = 0.14 := by
  obtain ⟨h1, h2, h3, h4⟩ := sel_eval hv hc0
  constructor
  · rw [sSel, h1, h2, h3, h4, hgs, hge, hl]
    exact chipS_val
  · rw [eWinSel, h1, h2, h3, h4, hgs, hge]
    exact chipEWin_val

lemma glLength_small : glLength 0.0001 0.0001 = 0.0001 * Real.sqrt 2 := by
  rw [glLength, show (0.0001 : ℝ) ^ 2 + 0.0001 ^ 2 = 0.0001 ^ 2 * 2 by ring,
    Real.sqrt_mul (by positivity) 2, Real.sqrt_sq (by norm_num)]

lemma glNormalize_small_fst : (glNormalize 0.0001 0.0001).1 * 2 = Real.sqrt 2 := by
  show 0.0001 / glLength 0.0001 0.0001 * 2 = Real.sqrt 2
  rw [glLength_small, div_mul_eq_div_div]
  rw [show (0.0001 : ℝ) / 0.0001 = 1 by norm_num, one_div, inv_mul_eq_div]
  exact Real.div_sqrt

lemma glNormalize_small_snd : (glNormalize 0.0001 0.0001).2 * 2 = Real.sqrt 2 := by
  show 0.0001 / glLength 0.0001 0.0001 * 2 = Real.sqrt 2
  rw [glLength_small, div_mul_eq_div_div]
  rw [show (0.0001 : ℝ) / 0.0001 = 1 by norm_num, one_div, inv_mul_eq_div]
  exact Real.div_sqrt

lemma alphaOut_floor (f : Frame) (v : Vert) (h : 140 < distCTA f v) :
    alphaOut f v = 0.85 := by
  have h1 : (1 : ℝ) < distCTA f v / 140 := (one_lt_div (by norm_num)).mpr h
  rw [alphaOut, glClamp, max_eq_right (by linarith), min_eq_left (by norm_num)]

lemma actorPos_at_zero (f : Frame) (v : Vert) (hT : f.uT = 0) (hA : v.vertexID < f.uSplit)
    (hchips : f.chips = [])
    (hsin : Real.sin (f.uTick * 0.8 + chipIndex f v * 1.37) = 0)
    (hgs : 0 ≤ gStartSel f v) (hs0 : 0 ≤ sSel f v) :
    posX f v = 0.15 * v.aStartX + 0.85 * v.aCloudX + Real.sqrt 2 ∧
    posY f v = 0.15 * v.aStartY + 0.85 * v.aCloudY + Real.sqrt 2 := by
  have hcta := tCTAphase_zero hT
  have hexp := tExplode_zero hT
  have ht1 := t1_zero hT
  have hba : burstAmt f v = 0 := by rw [burstAmt, ht1]; ring
  have hau : aura f v = ⟨0, 0, 0, 0⟩ := by rw [aura, hchips]; rfl
  have hb1X : burstPos1X f v = v.aStartX := by
    rw [burstPos1X, burstPos0X, hba, ht1, hau]
    norm_num
  have hb1Y : burstPos1Y f v = v.aStartY := by
    rw [burstPos1Y, burstPos0Y, hba, ht1, hau]
    norm_num
  have hpre : preAmt f v = 1 := by
    rw [preAmt, hT, glSmoothstep_zero_of ?hd]
    · norm_num
    case hd =>
      rw [show gStartSel f v + 0.06 - gStartSel f v = 0.06 by ring]
      apply div_nonpos_of_nonpos_of_nonneg (by linarith) (by norm_num)
  have hbX : burstPosX f v = 0.15 * v.aStartX + 0.85 * v.aCloudX := by
    rw [burstPosX, hb1X, hpre, glMix]; ring
  have hbY : burstPosY f v = 0.15 * v.aStartY + 0.85 * v.aCloudY := by
    rw [burstPosY, hb1Y, hpre, glMix]; ring
  have hph0 : tChipPhaseSel f v = 0 := by
    rw [sSel] at hs0
    have hloc : chipLocal (gStartSel f v) (gEndSel f v) (groupIndexSel f v)
        (gCountSel f v) f.uLate 0 = 0 := by
      rw [chipLocal]
      apply glClamp01_of_nonpos
      apply div_nonpos_of_nonpos_of_nonneg (by linarith)
      exact le_trans (by norm_num) (le_max_left _ _)
    rw [tChipPhaseSel, tChipPhase, hT, hloc]
    exact glSmoothstep01_at_zero
  have hidle0 : idle f v = 0 := by rw [idle, hsin, mul_zero]
  have hpi0 : tChipPhaseIdle f v = 0 := by
    rw [tChipPhaseIdle, hph0, hidle0, add_zero]
    exact glClamp01_of_nonpos le_rfl
  have hmw : maxWeight f v = 0 := by rw [maxWeight, hpi0, hexp, hcta]; norm_num
  have hef : explodeFactor f = 0 := by rw [explodeFactor, hexp]; ring
  have htcX : tgtChipX f v = burstPosX f v := by rw [tgtChipX, hpi0, glMix_zero]
  have htcY : tgtChipY f v = burstPosY f v := by rw [tgtChipY, hpi0, glMix_zero]
  have hccX : chipToCloudX f v = burstPosX f v := by rw [chipToCloudX, hef, glMix_zero, htcX]
  have hccY : chipToCloudY f v = burstPosY f v := by rw [chipToCloudY, hef, glMix_zero, htcY]
  have htgX : tgtX f v = burstPosX f v := by rw [tgtX, hcta, glMix_zero, hccX]
  have htgY : tgtY f v = burstPosY f v := by rw [tgtY, hcta, glMix_zero, hccY]
  have hppX : posPreX f v = burstPosX f v := by rw [posPreX, hmw, glMix_zero]
  have hppY : posPreY f v = burstPosY f v := by rw [posPreY, hmw, glMix_zero]
  have hedge0 : edgeBias f v = 0 := by
    rw [edgeBias, hph0]
    exact glSmoothstep_zero_of (by norm_num)
  have hdX : tgtX f v - posPreX f v = 0 := by rw [htgX, hppX, sub_self]
  have hdY : tgtY f v - posPreY f v = 0 := by rw [htgY, hppY, sub_self]
  constructor
  · rw [posX, if_pos hA, posActorX, hedge0, hdX, hdY, hppX, hbX,
      show (0.0001 : ℝ) + 0 = 0.0001 by norm_num]
    have hn := glNormalize_small_fst
    linear_combination hn
  · rw [posY, if_pos hA, posActorY, hedge0, hdX, hdY, hppY, hbY,
      show (0.0001 : ℝ) + 0 = 0.0001 by norm_num]
    have hn := glNormalize_small_snd
    linear_combination hn

end VertSrc

namespace Particles

lemma fillBuffers_some (cta : List (ℚ × ℚ)) (chips : List (List (ℚ × ℚ))) (pool : ℕ)
    (hcta : cta ≠ []) (hC : chips ≠ []) :
    fillBuffers cta chips pool = some (chipAssign chips pool) := by
  rw [fillBuffers, if_neg]
  simp [List.length_eq_zero, hcta, hC]

lemma mem_ctaPoints_inside (j : ℚ × ℚ → ℚ × ℚ) (rc : RRect) {p : ℚ × ℚ}
    (hp : p ∈ ctaPoints j rc) : insideRoundRect p.1 p.2 rc = true := by
  rw [ctaPoints] at hp
  obtain ⟨c, hc, hmap⟩ := List.mem_map.mp hp
  obtain ⟨hcand, hpred⟩ := List.mem_filter.mp hc
  by_cases hj : insideRoundRect (c.1 + (j c).1) (c.2 + (j c).2) rc = true
  · rw [if_pos hj] at hmap
    rw [← hmap]
    exact hj
  · rw [if_neg hj] at hmap
    rw [← hmap]
    exact hpred

lemma ctaTargets_length (j : ℚ × ℚ → ℚ × ℚ) (js : ℕ → ℕ) (rc : RRect) :
    (ctaTargets j js rc).length =
      ((ctaCandidates rc).filter fun c => insideRoundRect c.1 c.2 rc).length := by
  rw [ctaTargets, length_fyShuffle, ctaPoints, List.length_map]

lemma ctaTargets_rcThin (j : ℚ × ℚ → ℚ × ℚ) (js : ℕ → ℕ) :
    ctaTargets j js Ex.rcThin = [] := by
  have hy : gridPts (Ex.rcThin.y + 5 / 2) (Ex.rcThin.y + Ex.rcThin.h - 5 / 2) 5 = [] := by
    norm_num [gridPts, gridCount, Ex.rcThin]
  rw [ctaTargets, ctaPoints, ctaCandidates, hy]
  rfl

lemma gridPts_five : gridPts (5 / 2 : ℚ) (5 / 2) 5 = [5 / 2] := by
  have h1 : gridCount (5 / 2 : ℚ) (5 / 2) 5 = 1 := by
    rw [gridCount, if_pos le_rfl]
    norm_num
  rw [gridPts, h1, List.range_succ, List.range_zero]
  norm_num

lemma ctaCandidates_rcFive : ctaCandidates Ex.rcFive = [(5 / 2, 5 / 2)] := by
  rw [ctaCandidates,
    show Ex.rcFive.y + 5 / 2 = (5 : ℚ) / 2 by norm_num [Ex.rcFive],
    show Ex.rcFive.y + Ex.rcFive.h - 5 / 2 = (5 : ℚ) / 2 by norm_num [Ex.rcFive],
    show Ex.rcFive.x + 5 / 2 = (5 : ℚ) / 2 by norm_num [Ex.rcFive],
    show Ex.rcFive.x + Ex.rcFive.w - 5 / 2 = (5 : ℚ) / 2 by norm_num [Ex.rcFive],
    gridPts_five]
  rfl

lemma inside_rcFive : insideRoundRect (5 / 2) (5 / 2) Ex.rcFive = true := by
  norm_num [insideRoundRect, Ex.rcFive]

lemma ctaPoints_rcFive : ctaPoints Ex.jZero Ex.rcFive = [(5 / 2, 5 / 2)] := by
  rw [ctaPoints, ctaCandidates_rcFive]
  simp [inside_rcFive, Ex.jZero]

lemma ctaTargets_rcFive : ctaTargets Ex.jZero Ex.jsZero Ex.rcFive = [(5 / 2, 5 / 2)] := by
  rw [ctaTargets, ctaPoints_rcFive]
  rfl

lemma insideRoundRect_of_bar1 {x y : ℚ} {rc : RRect}
    (h1 : rc.x + rc.r ≤ x) (h2 : x ≤ rc.x + rc.w - rc.r)
    (h3 : rc.y ≤ y) (h4 : y ≤ rc.y + rc.h) :
    insideRoundRect x y rc = true := by
  simp only [insideRoundRect]
  rw [if_pos ⟨h1, h2, h3, h4⟩]

lemma insideRoundRect_of_bar2 {x y : ℚ} {rc : RRect}
    (h1 : rc.y + rc.r ≤ y) (h2 : y ≤ rc.y + rc.h - rc.r)
    (h3 : rc.x ≤ x) (h4 : x ≤ rc.x + rc.w) :
    insideRoundRect x y rc = true := by
  simp only [insideRoundRect]
  by_cases hc1 : rc.x + rc.r ≤ x ∧ x ≤ rc.x + rc.w - rc.r ∧ rc.y ≤ y ∧ y ≤ rc.y + rc.h
  · rw [if_pos hc1]
  · rw [if_neg hc1, if_pos ⟨h1, h2, h3, h4⟩]

lemma insideRoundRect_of_corner {x y : ℚ} {rc : RRect}
    (hwr : 2 * rc.r ≤ rc.w) (hhr : 2 * rc.r ≤ rc.h)
    (hcx : x < rc.x + rc.r ∨ rc.x + rc.w - rc.r < x)
    (hcy : y < rc.y + rc.r ∨ rc.y + rc.h - rc.r < y)
    (hd : (x - if x < rc.x + rc.r then rc.x + rc.r else rc.x + rc.w - rc.r) ^ 2 +
      (y - if y < rc.y + rc.r then rc.y + rc.r else rc.y + rc.h - rc.r) ^ 2 ≤ rc.r ^ 2) :
    insideRoundRect x y rc = true := by
  simp only [insideRoundRect]
  have hnc1 : ¬(rc.x + rc.r ≤ x ∧ x ≤ rc.x + rc.w - rc.r ∧ rc.y ≤ y ∧ y ≤ rc.y + rc.h) := by
    rintro ⟨ha, hb, -, -⟩
    rcases hcx with h | h <;> linarith
  have hnc2 : ¬(rc.y + rc.r ≤ y ∧ y ≤ rc.y + rc.h - rc.r ∧ rc.x ≤ x ∧ x ≤ rc.x + rc.w) := by
    rintro ⟨ha, hb, -, -⟩
    rcases hcy with h | h <;> linarith
  rw [if_neg hnc1, if_neg hnc2]
  · apply decide_eq_true
    rcases hcx with h | h
    · rw [if_pos h] at hd
      rw [if_pos h]
      rcases hcy with h' | h'
      · rw [if_pos h'] at hd
        rw [if_pos h']
        exact hd
      · have hnoty : ¬(y < rc.y + rc.r) := not_lt.mpr (by linarith)
        rw [if_neg hnoty] at hd
        rw [if_neg hnoty, if_pos h']
        exact hd
    · have hnotx : ¬(x < rc.x + rc.r) := not_lt.mpr (by linarith)
      rw [if_neg hnotx] at hd
      rw [if_neg hnotx, if_pos h]
      rcases hcy with h' | h'
      · rw [if_pos h'] at hd
        rw [if_pos h']
        exact hd
      · have hnoty : ¬(y < rc.y + rc.r) := not_lt.mpr (by linarith)
        rw [if_neg hnoty] at hd
        rw [if_neg hnoty, if_pos h']
        exact hd

lemma mem_gridPts (a b : ℚ) (i : ℕ) (hab : a ≤ b) (hi : (i : ℚ) ≤ (b - a) / 5) :
    a + 5 * (i : ℚ) ∈ gridPts a b 5 := by
  rw [gridPts]
  refine List.mem_map.mpr ⟨i, List.mem_range.mpr ?_, rfl⟩
  rw [gridCount, if_pos hab]
  have h1 : (i : ℤ) ≤ ⌊(b - a) / 5⌋ := Int.le_floor.mpr (by exact_mod_cast hi)
  omega

lemma grid_near_mid (x0 w : ℚ) (hw : 5 ≤ w) :
    ∃ g ∈ gridPts (x0 + 5 / 2) (x0 + w - 5 / 2) 5,
      |g - (x0 + w / 2)| ≤ 5 / 2 ∧ |g - (x0 + w / 2)| ≤ (w - 5) / 2 := by
  have hab : x0 + 5 / 2 ≤ x0 + w - 5 / 2 := by linarith
  set q : ℚ := (w - 5) / 10 with hq
  have hq0 : (0 : ℚ) ≤ q := by rw [hq]; linarith
  set m : ℤ := ⌊q⌋ with hm
  have hm0 : 0 ≤ m := Int.floor_nonneg.mpr hq0
  have hmle : (m : ℚ) ≤ q := Int.floor_le q
  have hmlt : q < (m : ℚ) + 1 := Int.lt_floor_add_one q
  have hw10 : w = 10 * q + 5 := by rw [hq]; ring
  have hba : (x0 + w - 5 / 2 - (x0 + 5 / 2)) / 5 = 2 * q := by rw [hq]; ring
  have hm0q : (0 : ℚ) ≤ (m : ℚ) := by exact_mod_cast hm0
  have hcast0 : ((m.toNat : ℕ) : ℚ) = (m : ℚ) := by
    exact_mod_cast Int.toNat_of_nonneg hm0
  by_cases hfr : q - (m : ℚ) ≤ 1 / 2
  · refine ⟨x0 + 5 / 2 + 5 * ((m.toNat : ℕ) : ℚ), ?_, ?_, ?_⟩
    · apply mem_gridPts _ _ _ hab
      rw [hba, hcast0]
      linarith
    · rw [hcast0, abs_le]
      constructor <;> linarith
    · rw [hcast0, abs_le]
      constructor <;> linarith
  · have hfr2 : 1 / 2 < q - (m : ℚ) := not_le.mp hfr
    have h2q : (m : ℚ) + 1 ≤ 2 * q := by linarith
    have hcast : (((m.toNat + 1 : ℕ)) : ℚ) = (m : ℚ) + 1 := by
      push_cast
      rw [hcast0]
    refine ⟨x0 + 5 / 2 + 5 * (((m.toNat + 1 : ℕ)) : ℚ), ?_, ?_, ?_⟩
    · apply mem_gridPts _ _ _ hab
      rw [hba, hcast]
      linarith
    · rw [hcast, abs_le]
      constructor <;> linarith
    · rw [hcast, abs_le]
      constructor <;> linarith

end Particles

namespace Particles

/-- Claim C4: for every pool size `P ≥ 1` and cluster list with `C ≥ 1`
non-empty sample sequences, the builder assigns `floor(P/C)` particles to each
cluster in sequence (cluster `i` fills slots `i*floor(P/C) + k`, each position
being cluster `i`'s sequence indexed modulo its length), assigns the remaining
`P - C*floor(P/C)` slots positions drawn from the last cluster (indexed by the
global write index modulo its length), and consequently every index in `[0,P)`
receives a `clusterTarget` drawn from some cluster's sample sequence, even when
`P` is not divisible by `C`. -/
theorem C4_pool_distribution (chips : List (List (ℚ × ℚ))) (pool : ℕ)
    (hP : 1 ≤ pool) (hC : chips ≠ []) (hne : ∀ cl ∈ chips, cl ≠ []) :
    (chipAssign chips pool).length = pool ∧
    (∀ i k, i < chips.length → k < pool / chips.length →
      (chipAssign chips pool)[i * (pool / chips.length) + k]? =
        some (pickMod (chips.getD i []) k)) ∧
    (∀ w, chips.length * (pool / chips.length) ≤ w → w < pool →
      (chipAssign chips pool)[w]? =
        some (pickMod (chips.getD (chips.length - 1) []) w)) ∧
    (∀ idx, idx < pool → ∃ x, (chipAssign chips pool)[idx]? = some (some x) ∧
      ∃ cl ∈ chips, x ∈ cl) := by
  refine ⟨chipAssign_length chips pool hC, ?_, ?_, ?_⟩
  · intro i k hi hk
    exact chipAssign_getElem_main chips pool hC i k hi hk
  · intro w hw1 hw2
    exact chipAssign_getElem_rest chips pool hC w hw1 hw2
  · intro idx hidx
    exact chipAssign_total chips pool hC hne idx hidx

/-- Witness for C4 at a concrete input: two singleton clusters, pool 5. -/
theorem C4_pool_distribution_witness : (chipAssign Ex.chipsTwo 5).length = 5 :=
  (C4_pool_distribution Ex.chipsTwo 5 (by norm_num)
    (by simp [Ex.chipsTwo])
    (by
      intro cl hcl
      simp [Ex.chipsTwo] at hcl
      rcases hcl with rfl | rfl <;> simp)).1

/-- Claim C5 (counterexample): the destination sampler returns the empty point
set for a non-degenerate rounded rectangle (width 100, height 4, radius 1,
positive area) because the height is smaller than the 5 px grid spacing; no
clamping or substepping takes place. -/
theorem C5_sampler_counterexample :
    0 < Ex.rcThin.w ∧ 0 < Ex.rcThin.h ∧ Ex.rcThin.r ≤ Ex.rcThin.h / 2 ∧
    ctaTargets Ex.jZero Ex.jsZero Ex.rcThin = [] :=
  ⟨by norm_num [Ex.rcThin], by norm_num [Ex.rcThin], by norm_num [Ex.rcThin],
    ctaTargets_rcThin Ex.jZero Ex.jsZero⟩

set_option maxHeartbeats 1000000 in
/-- Claim C5 (amended): the sampler never clamps spacing or substeps, so for
a shape with a dimension below the 5 px spacing it emits zero points; but for
every non-degenerate rounded rectangle — both dimensions at least the
spacing, corner radius nonnegative and at most half of each dimension — it
emits at least one point (the grid candidate nearest the rectangle's midpoint
is always inside, via a straight edge band or a corner circle). -/
theorem C5_sampler_amended (j : ℚ × ℚ → ℚ × ℚ) (js : ℕ → ℕ) (rc : RRect)
    (hw : 5 ≤ rc.w) (hh : 5 ≤ rc.h) (hr0 : 0 ≤ rc.r)
    (hrw : 2 * rc.r ≤ rc.w) (hrh : 2 * rc.r ≤ rc.h) :
    1 ≤ (ctaTargets j js rc).length := by
  obtain ⟨gx, hgxm, hgx1, hgx2⟩ := grid_near_mid rc.x rc.w hw
  obtain ⟨gy, hgym, hgy1, hgy2⟩ := grid_near_mid rc.y rc.h hh
  obtain ⟨hgx1l, hgx1r⟩ := abs_le.mp hgx1
  obtain ⟨hgx2l, hgx2r⟩ := abs_le.mp hgx2
  obtain ⟨hgy1l, hgy1r⟩ := abs_le.mp hgy1
  obtain ⟨hgy2l, hgy2r⟩ := abs_le.mp hgy2
  have hcand : (gx, gy) ∈ ctaCandidates rc := by
    rw [ctaCandidates]
    exact List.mem_flatMap.mpr ⟨gy, hgym, List.mem_map.mpr ⟨gx, hgxm, rfl⟩⟩
  have hinside : insideRoundRect gx gy rc = true := by
    by_cases hbx : rc.x + rc.r ≤ gx ∧ gx ≤ rc.x + rc.w - rc.r
    · exact insideRoundRect_of_bar1 hbx.1 hbx.2 (by linarith) (by linarith)
    · by_cases hby : rc.y + rc.r ≤ gy ∧ gy ≤ rc.y + rc.h - rc.r
      · exact insideRoundRect_of_bar2 hby.1 hby.2 (by linarith) (by linarith)
      · have hcx : gx < rc.x + rc.r ∨ rc.x + rc.w - rc.r < gx := by
          by_contra hcon
          push_neg at hcon
          exact hbx ⟨hcon.1, hcon.2⟩
        have hcy : gy < rc.y + rc.r ∨ rc.y + rc.h - rc.r < gy := by
          by_contra hcon
          push_neg at hcon
          exact hby ⟨hcon.1, hcon.2⟩
        apply insideRoundRect_of_corner hrw hrh hcx hcy
        rcases hcx with h1 | h1 <;> rcases hcy with h2 | h2
        · have ha1 : (0 : ℚ) ≤ rc.r - 2 * (rc.r - (gx - rc.x)) := by linarith
          have ha2 : (0 : ℚ) ≤ rc.r + 2 * (rc.r - (gx - rc.x)) := by linarith
          have hb1 : (0 : ℚ) ≤ rc.r - 2 * (rc.r - (gy - rc.y)) := by linarith
          have hb2 : (0 : ℚ) ≤ rc.r + 2 * (rc.r - (gy - rc.y)) := by linarith
          rw [if_pos h1, if_pos h2]
          nlinarith [mul_nonneg ha1 ha2, mul_nonneg hb1 hb2, sq_nonneg rc.r]
        · have hyge : rc.y + rc.r ≤ gy := by linarith
          have ha1 : (0 : ℚ) ≤ rc.r - 2 * (rc.r - (gx - rc.x)) := by linarith
          have ha2 : (0 : ℚ) ≤ rc.r + 2 * (rc.r - (gx - rc.x)) := by linarith
          have hb1 : (0 : ℚ) ≤ rc.r - 2 * (gy - (rc.y + rc.h - rc.r)) := by linarith
          have hb2 : (0 : ℚ) ≤ rc.r + 2 * (gy - (rc.y + rc.h - rc.r)) := by linarith
          rw [if_pos h1, if_neg (not_lt.mpr hyge)]
          nlinarith [mul_nonneg ha1 ha2, mul_nonneg hb1 hb2, sq_nonneg rc.r]
        · have hxge : rc.x + rc.r ≤ gx := by linarith
          have ha1 : (0 : ℚ) ≤ rc.r - 2 * (gx - (rc.x + rc.w - rc.r)) := by linarith
          have ha2 : (0 : ℚ) ≤ rc.r + 2 * (gx - (rc.x + rc.w - rc.r)) := by linarith
          have hb1 : (0 : ℚ) ≤ rc.r - 2 * (rc.r - (gy - rc.y)) := by linarith
          have hb2 : (0 : ℚ) ≤ rc.r + 2 * (rc.r - (gy - rc.y)) := by linarith
          rw [if_neg (not_lt.mpr hxge), if_pos h2]
          nlinarith [mul_nonneg ha1 ha2, mul_nonneg hb1 hb2, sq_nonneg rc.r]
        · have hxge : rc.x + rc.r ≤ gx := by linarith
          have hyge : rc.y + rc.r ≤ gy := by linarith
          have ha1 : (0 : ℚ) ≤ rc.r - 2 * (gx - (rc.x + rc.w - rc.r)) := by linarith
          have ha2 : (0 : ℚ) ≤ rc.r + 2 * (gx - (rc.x + rc.w - rc.r)) := by linarith
          have hb1 : (0 : ℚ) ≤ rc.r - 2 * (gy - (rc.y + rc.h - rc.r)) := by linarith
          have hb2 : (0 : ℚ) ≤ rc.r + 2 * (gy - (rc.y + rc.h - rc.r)) := by linarith
          rw [if_neg (not_lt.mpr hxge), if_neg (not_lt.mpr hyge)]
          nlinarith [mul_nonneg ha1 ha2, mul_nonneg hb1 hb2, sq_nonneg rc.r]
  have hfil : (gx, gy) ∈ (ctaCandidates rc).filter fun c => insideRoundRect c.1 c.2 rc :=
    List.mem_filter.mpr ⟨hcand, hinside⟩
  rw [ctaTargets_length]
  exact List.length_pos.mpr (List.ne_nil_of_mem hfil)

/-- Witness for the amended C5 at a CTA-sized rounded rectangle (220 by 44,
corner radius 22 — half the height). -/
theorem C5_sampler_amended_witness :
    1 ≤ (ctaTargets Ex.jZero Ex.jsZero Ex.rcCTA).length :=
  C5_sampler_amended Ex.jZero Ex.jsZero Ex.rcCTA (by norm_num [Ex.rcCTA])
    (by norm_num [Ex.rcCTA]) (by norm_num [Ex.rcCTA]) (by norm_num [Ex.rcCTA])
    (by norm_num [Ex.rcCTA])

/-- Claim C6 (counterexample): with a non-empty destination sample set and a
chip list containing one chip whose sample sequence is empty, the builder
passes its not-ready guard (it only checks the outer lists) and produces
undefined (`none`, i.e. JavaScript `NaN`) positions for every slot: it does
not skip the assignment, does not fall back to a non-empty cluster, and takes
a modulus by zero. -/
theorem C6_empty_cluster_counterexample :
    fillBuffers [(0, 0)] [[]] 2 = some [none, none] := rfl

/-- Claim C6 (amended): the builder is defensive only against a fully missing
target set (empty destination sample set or empty chip list, in which case it
marks the buffers not ready and assigns nothing); well-defined positions for
every slot are guaranteed only when, in addition, every individual cluster's
sample sequence is non-empty. -/
theorem C6_empty_cluster_amended (cta : List (ℚ × ℚ)) (chips : List (List (ℚ × ℚ)))
    (pool : ℕ) (hcta : cta ≠ []) (hC : chips ≠ []) (hne : ∀ cl ∈ chips, cl ≠ []) :
    ∃ l, fillBuffers cta chips pool = some l ∧ l.length = pool ∧
      ∀ o ∈ l, o.isSome = true := by
  refine ⟨chipAssign chips pool, fillBuffers_some cta chips pool hcta hC,
    chipAssign_length chips pool hC, ?_⟩
  intro o ho
  obtain ⟨idx, hlt, rfl⟩ := List.getElem_of_mem ho
  have hidx : idx < pool := by
    rwa [chipAssign_length chips pool hC] at hlt
  obtain ⟨x, hx, _⟩ := chipAssign_total chips pool hC hne idx hidx
  have h2 : (chipAssign chips pool)[idx] = some x := by
    rw [List.getElem?_eq_getElem hlt] at hx
    exact Option.some.inj hx
  rw [h2]
  rfl

/-- Witness for the amended C6 at a concrete input. -/
theorem C6_empty_cluster_amended_witness :
    ∃ l, fillBuffers [((0 : ℚ), (0 : ℚ))] [[((1 : ℚ), (1 : ℚ))]] 3 = some l ∧
      l.length = 3 ∧ ∀ o ∈ l, o.isSome = true :=
  C6_empty_cluster_amended _ _ _ (by simp) (by simp)
    (by
      intro cl hcl
      simp at hcl
      subst hcl
      simp)

/-- Claim C7: under a progress delta within the 0.0005 epsilon, the per-frame
step's activity opacity is 0 exactly when `hold + fade = 150 + 600 = 750` ms
of idleness have elapsed, decreases linearly on `[150, 750]`, forces the
reported canvas opacity to 0 at 750 ms, and any subsequent movement beyond
epsilon resets the hold timer and restores the full activity opacity. -/
theorem C7_idle_fade (st : FadeState) (p nowMs : ℚ)
    (h : |p - st.lastProgress| ≤ 0.0005) :
    ((fadeStep st p nowMs).2.1 = 0 ↔ 750 ≤ nowMs - st.lastActiveMs) ∧
    (150 ≤ nowMs - st.lastActiveMs → nowMs - st.lastActiveMs ≤ 750 →
      (fadeStep st p nowMs).2.1 = 1 - (nowMs - st.lastActiveMs - 150) / 600) ∧
    (750 ≤ nowMs - st.lastActiveMs → (fadeStep st p nowMs).2.2 = 0) ∧
    (∀ q ms : ℚ, 0.0005 < |q - (fadeStep st p nowMs).1.lastProgress| →
      (fadeStep (fadeStep st p nowMs).1 q ms).1.lastActiveMs = ms ∧
      (fadeStep (fadeStep st p nowMs).1 q ms).2.1 = 1) := by
  have hno : ¬(0.0005 < |p - st.lastProgress|) := not_lt.mpr h
  have hfst : (fadeStep st p nowMs).1 = ⟨p, st.lastActiveMs⟩ := by
    simp [fadeStep, hno]
  have hact : (fadeStep st p nowMs).2.1 =
      if 150 < nowMs - st.lastActiveMs then
        1 - min 1 ((nowMs - st.lastActiveMs - 150) / 600) else 1 := by
    simp [fadeStep, hno]
  have hfin : (fadeStep st p nowMs).2.2 =
      max 0 (min 1 (baseAlpha p * (fadeStep st p nowMs).2.1)) := by
    simp [fadeStep, hno]
  have hiff : (fadeStep st p nowMs).2.1 = 0 ↔ 750 ≤ nowMs - st.lastActiveMs := by
    rw [hact]
    split_ifs with h150
    · constructor
      · intro h0
        have hmin : min 1 ((nowMs - st.lastActiveMs - 150) / 600) = 1 := by linarith
        have h1 : (1 : ℚ) ≤ (nowMs - st.lastActiveMs - 150) / 600 :=
          min_eq_left_iff.mp hmin
        rw [le_div_iff (by norm_num : (0 : ℚ) < 600)] at h1
        linarith
      · intro h750
        have h1 : (1 : ℚ) ≤ (nowMs - st.lastActiveMs - 150) / 600 := by
          rw [le_div_iff (by norm_num : (0 : ℚ) < 600)]
          linarith
        rw [min_eq_left h1]
        ring
    · constructor
      · intro h0
        exact absurd h0 one_ne_zero
      · intro h750
        exfalso
        have := not_lt.mp h150
        linarith
  refine ⟨hiff, ?_, ?_, ?_⟩
  · intro ha hb
    rw [hact]
    split_ifs with h150
    · rw [min_eq_right]
      rw [div_le_one (by norm_num : (0 : ℚ) < 600)]
      linarith
    · have hde : nowMs - st.lastActiveMs = 150 := le_antisymm (not_lt.mp h150) ha
      rw [hde]
      norm_num
  · intro h750
    rw [hfin, hiff.mpr h750, mul_zero]
    norm_num
  · intro q ms hq
    rw [hfst] at hq
    have hq2 : 0.0005 < |q - p| := hq
    rw [hfst]
    constructor
    · simp [fadeStep, hq2]
    · show (fadeStep ⟨p, st.lastActiveMs⟩ q ms).2.1 = 1
      simp only [fadeStep]
      rw [if_pos hq2, sub_self, if_neg (by norm_num : ¬(150 : ℚ) < 0)]

/-- Witness for C7: after 750 ms of idleness the activity opacity is exactly 0,
and a movement of 1 restores it to 1. -/
theorem C7_idle_fade_witness :
    (fadeStep ⟨0, 0⟩ 0 750).2.1 = 0 ∧
    (fadeStep (fadeStep ⟨0, 0⟩ 0 750).1 1 800).2.1 = 1 := by
  have h := C7_idle_fade ⟨0, 0⟩ 0 750 (by norm_num)
  refine ⟨h.1.mpr (by norm_num), (h.2.2.2 1 800 ?_).2⟩
  have hfst : (fadeStep (⟨0, 0⟩ : FadeState) 0 750).1 = ⟨0, 0⟩ := by
    norm_num [fadeStep]
  rw [hfst]
  norm_num

/-- Claim C8: every point returned by the destination sampler lies within the
rounded rectangle; a jittered candidate is kept only if containment
re-validates after jitter, otherwise the unjittered grid point (which passed
the containment test) is emitted, so membership holds for every jitter and
shuffle draw. -/
theorem C8_points_inside (j : ℚ × ℚ → ℚ × ℚ) (js : ℕ → ℕ) (rc : RRect) :
    ∀ p ∈ ctaTargets j js rc, insideRoundRect p.1 p.2 rc = true := by
  intro p hp
  rw [ctaTargets] at hp
  exact mem_ctaPoints_inside j rc (mem_fyShuffle hp)

/-- Witness for C8 at a concrete shape whose sampler output is the single
point (5/2, 5/2). -/
theorem C8_points_inside_witness :
    insideRoundRect (5 / 2) (5 / 2) Ex.rcFive = true :=
  C8_points_inside Ex.jZero Ex.jsZero Ex.rcFive (5 / 2, 5 / 2)
    (by rw [ctaTargets_rcFive]; exact List.mem_singleton.mpr rfl)

/-- Claim C9: whenever the destination target set or the per-chip target list
is empty (geometry not yet measured), the buffer-fill step marks the buffers
not ready and uploads nothing (`none`), and the per-frame render callback
returns before issuing any clear or draw call. -/
theorem C9_not_ready_no_draw (cta : List (ℚ × ℚ)) (chips : List (List (ℚ × ℚ)))
    (pool : ℕ) (h : cta = [] ∨ chips = []) :
    fillBuffers cta chips pool = none ∧
    renderStep (fillBuffers cta chips pool).isSome = ⟨false, false⟩ := by
  have hor : cta.length = 0 ∨ chips.length = 0 := by
    rcases h with rfl | rfl
    · left; rfl
    · right; rfl
  have hfb : fillBuffers cta chips pool = none := by
    rw [fillBuffers, if_pos hor]
  exact ⟨hfb, by rw [hfb]; rfl⟩

/-- Witness for C9: an empty destination sample set yields no upload, no
clear, no draw. -/
theorem C9_not_ready_no_draw_witness :
    fillBuffers [] [[((1 : ℚ), (1 : ℚ))]] 5 = none ∧
    renderStep (fillBuffers [] [[((1 : ℚ), (1 : ℚ))]] 5).isSome = ⟨false, false⟩ :=
  C9_not_ready_no_draw _ _ _ (Or.inl rfl)

end Particles

namespace VertSrc

/-- Claim C1: at `progress = 1` the destination-coalescence weight `tCTAphase`
equals 1 (it is the same for every group), the CTA jitter amplitude, chip
jitter amplitude and idle-drift amplitude all vanish, and the per-vertex
position of every actor particle equals its `aTargetCTA`, independent of its
group or cluster assignment (the window hypotheses hold for every window
configuration the renderer uploads, whose ends are at most 0.42). -/
theorem C1_progress_one_settles (f : Frame) (v : Vert) (hT : f.uT = 1)
    (hA : v.vertexID < f.uSplit) (hs : sSel f v ≤ 0.9999) (he : eWinSel f v ≤ 1) :
    tCTAphase f = 1 ∧ ctaJamp f = 0 ∧ chipJamp f = 0 ∧ idleAmp f = 0 ∧
    posX f v = v.aCTAX ∧ posY f v = v.aCTAY := by
  have h1 := tCTAphase_one hT
  have h2 := tExplode_one hT
  have hjc : ctaJamp f = 0 := by rw [ctaJamp, h1]; ring
  have hcj : chipJamp f = 0 := by rw [chipJamp, h1, h2]; ring
  have hia : idleAmp f = 0 := by rw [idleAmp, h1, h2]; ring
  have hph : tChipPhaseSel f v = 1 := by
    rw [sSel] at hs
    rw [eWinSel] at he
    rw [tChipPhaseSel, tChipPhase, hT, chipLocal_one_of _ _ _ _ _ hs he]
    exact glSmoothstep01_at_one
  have hpi : tChipPhaseIdle f v = 1 := by
    rw [tChipPhaseIdle, hph, show idle f v = 0 by rw [idle, hia, zero_mul], add_zero]
    exact glClamp01_of_le le_rfl
  have hmw : maxWeight f v = 1 := by
    rw [maxWeight, hpi, h2, h1]
    norm_num
  have hjX : jCTAX f v = 0 := by rw [jCTAX, hjc, mul_zero]
  have hjY : jCTAY f v = 0 := by rw [jCTAY, hjc, mul_zero]
  have htgX : tgtX f v = v.aCTAX := by rw [tgtX, h1, glMix_one, hjX, add_zero]
  have htgY : tgtY f v = v.aCTAY := by rw [tgtY, h1, glMix_one, hjY, add_zero]
  have hppX : posPreX f v = v.aCTAX := by rw [posPreX, hmw, glMix_one, htgX]
  have hppY : posPreY f v = v.aCTAY := by rw [posPreY, hmw, glMix_one, htgY]
  have hedge : edgeBias f v = 1 := by
    rw [edgeBias, hph]
    exact glSmoothstep_one_of (by norm_num)
  refine ⟨h1, hjc, hcj, hia, ?_, ?_⟩
  · rw [posX, if_pos hA, posActorX, hedge, hppX, htgX]
    ring
  · rw [posY, if_pos hA, posActorY, hedge, hppY, htgY]
    ring

/-- Witness for C1: a concrete one-chip frame at `progress = 1`. -/
theorem C1_progress_one_settles_witness :
    tCTAphase Ex.fOne = 1 ∧ posX Ex.fOne Ex.vZero = Ex.vZero.aCTAX := by
  have hw := winSel_val (f := Ex.fOne) (v := Ex.vZero) rfl rfl rfl rfl rfl
  have h := C1_progress_one_settles Ex.fOne Ex.vZero rfl
    (by norm_num [Ex.fOne, Ex.vZero])
    (by rw [hw.1]; norm_num)
    (by rw [hw.2]; norm_num)
  exact ⟨h.1, h.2.2.2.2.1⟩

/-- Claim C2 (counterexample): at `progress = 0` a particle does not render at
its start position: with start `(0,0)`, cloud target `(100,0)`, no chip-burst
auras, and the idle oscillator at zero phase, the pre-window cloud bias moves
it 85% toward the cloud target and the outline-bias term adds a further
offset, so the rendered x-coordinate is `85 + sqrt 2`, not 0. -/
theorem C2_progress_zero_counterexample :
    posX Ex.fZero Ex.vFar ≠ Ex.vFar.aStartX := by
  have hsel := sel_eval (f := Ex.fZero) (v := Ex.vFar) rfl rfl
  have hws := winSel_val (f := Ex.fZero) (v := Ex.vFar) rfl rfl rfl rfl rfl
  have h := actorPos_at_zero Ex.fZero Ex.vFar rfl
    (by norm_num [Ex.fZero, Ex.vFar]) rfl
    (by
      rw [chipIndex_zero (f := Ex.fZero) (v := Ex.vFar) rfl]
      norm_num [Ex.fZero])
    (by rw [hsel.1]; norm_num [Ex.fZero])
    (by rw [hws.1]; norm_num)
  rw [h.1, show Ex.vFar.aStartX = 0 from rfl, show Ex.vFar.aCloudX = 100 from rfl]
  intro hcontra
  nlinarith [Real.sqrt_nonneg 2]

/-- Claim C2 (amended): at `progress = 0` (with the particle outside every
chip-burst aura and the idle oscillator at zero phase) an actor particle
renders at its burst position biased 85% toward its ambient cloud target —
`0.15*start + 0.85*cloud` — plus the outline-bias offset of length 2
(`sqrt 2` per axis), not at its start position; and the destination-proximity
alpha of any particle at distance greater than 140 px from the destination
target is at its floor value 0.85. -/
theorem C2_progress_zero_amended (f : Frame) (v : Vert) (hT : f.uT = 0)
    (hA : v.vertexID < f.uSplit) (hchips : f.chips = [])
    (hsin : Real.sin (f.uTick * 0.8 + chipIndex f v * 1.37) = 0)
    (hgs : 0 ≤ gStartSel f v) (hs0 : 0 ≤ sSel f v) (hd : 140 < distCTA f v) :
    posX f v = 0.15 * v.aStartX + 0.85 * v.aCloudX + Real.sqrt 2 ∧
    posY f v = 0.15 * v.aStartY + 0.85 * v.aCloudY + Real.sqrt 2 ∧
    alphaOut f v = 0.85 := by
  obtain ⟨h1, h2⟩ := actorPos_at_zero f v hT hA hchips hsin hgs hs0
  exact ⟨h1, h2, alphaOut_floor f v hd⟩

/-- Witness for the amended C2 at a concrete input whose destination target is
far away (distance greater than 140 px). -/
theorem C2_progress_zero_amended_witness :
    posX Ex.fZero Ex.vFar =
      0.15 * Ex.vFar.aStartX + 0.85 * Ex.vFar.aCloudX + Real.sqrt 2 ∧
    posY Ex.fZero Ex.vFar =
      0.15 * Ex.vFar.aStartY + 0.85 * Ex.vFar.aCloudY + Real.sqrt 2 ∧
    alphaOut Ex.fZero Ex.vFar = 0.85 := by
  have hsel := sel_eval (f := Ex.fZero) (v := Ex.vFar) rfl rfl
  have hws := winSel_val (f := Ex.fZero) (v := Ex.vFar) rfl rfl rfl rfl rfl
  have hA : Ex.vFar.vertexID < Ex.fZero.uSplit := by norm_num [Ex.fZero, Ex.vFar]
  have hsin : Real.sin (Ex.fZero.uTick * 0.8 + chipIndex Ex.fZero Ex.vFar * 1.37) = 0 := by
    rw [chipIndex_zero (f := Ex.fZero) (v := Ex.vFar) rfl]
    norm_num [Ex.fZero]
  have hgs : 0 ≤ gStartSel Ex.fZero Ex.vFar := by rw [hsel.1]; norm_num [Ex.fZero]
  have hs0 : 0 ≤ sSel Ex.fZero Ex.vFar := by rw [hws.1]; norm_num
  have hpos := actorPos_at_zero Ex.fZero Ex.vFar rfl hA rfl hsin hgs hs0
  have hs2 : Real.sqrt 2 ^ 2 = 2 := Real.sq_sqrt (by norm_num)
  have hs2le : Real.sqrt 2 ≤ 2 := by nlinarith [Real.sqrt_nonneg 2]
  have hd : 140 < distCTA Ex.fZero Ex.vFar := by
    rw [distCTA, hpos.1, hpos.2, glLength]
    rw [show Ex.vFar.aCTAX = 1000 from rfl, show Ex.vFar.aCTAY = 0 from rfl,
      show Ex.vFar.aStartX = 0 from rfl, show Ex.vFar.aStartY = 0 from rfl,
      show Ex.vFar.aCloudX = 100 from rfl, show Ex.vFar.aCloudY = 0 from rfl]
    rw [show (140 : ℝ) = Real.sqrt (140 ^ 2) from (Real.sqrt_sq (by norm_num)).symm]
    apply Real.sqrt_lt_sqrt (by norm_num)
    nlinarith [Real.sqrt_nonneg 2]
  exact C2_progress_zero_amended Ex.fZero Ex.vFar rfl hA rfl hsin hgs hs0 hd

/-- Claim C3: with geometry and wall clock fixed and the idle-drift term
excluded, the per-chip cluster-coalescence weight `tChipPhase` is monotone
non-decreasing in progress, equals 0 at the chip's effective window start
`chipS` and equals 1 at its effective window end `chipEWin` (the latter under
the non-degenerate-window hypothesis `chipEWin - chipS ≥ 0.0001`, which the
renderer's window configuration satisfies). -/
theorem C3_coalescence_monotone (gS gE gi gc late t u : ℝ) (htu : t ≤ u)
    (hwin : 0.0001 ≤ chipEWin gS gE gi gc - chipS gS gE gi gc late) :
    tChipPhase gS gE gi gc late t ≤ tChipPhase gS gE gi gc late u ∧
    tChipPhase gS gE gi gc late (chipS gS gE gi gc late) = 0 ∧
    tChipPhase gS gE gi gc late (chipEWin gS gE gi gc) = 1 := by
  refine ⟨?_, ?_, ?_⟩
  · rw [tChipPhase, tChipPhase]
    exact glSmoothstep01_mono (chipLocal_mono gS gE gi gc late htu)
  · rw [tChipPhase, chipLocal_at_start]
    exact glSmoothstep01_at_zero
  · rw [tChipPhase, chipLocal_at_eWin gS gE gi gc late hwin]
    exact glSmoothstep01_at_one

/-- Witness for C3 at the first group window `[0, 0.14]` with one chip and
`late = 0.6`: effective start 0.084, effective end 0.14. -/
theorem C3_coalescence_monotone_witness :
    tChipPhase 0 0.14 0 1 0.6 0 ≤ tChipPhase 0 0.14 0 1 0.6 1 ∧
    tChipPhase 0 0.14 0 1 0.6 (chipS 0 0.14 0 1 0.6) = 0 ∧
    tChipPhase 0 0.14 0 1 0.6 (chipEWin 0 0.14 0 1) = 1 :=
  C3_coalescence_monotone 0 0.14 0 1 0.6 0 1 (by norm_num)
    (by rw [chipS_val, chipEWin_val]; norm_num)

/-- Claim C10: for every frame and vertex, the per-vertex alpha equals
`clamp(1 - d/140, 0.85, 1)` where `d` is the distance from the computed
position to the particle's destination target, and therefore always lies in
`[0.85, 1]`: an individual point's alpha never drops below 0.85. -/
theorem C10_alpha_floor_invariant (f : Frame) (v : Vert) :
    alphaOut f v = glClamp (1 - distCTA f v / 140) 0.85 1 ∧
    0.85 ≤ alphaOut f v ∧ alphaOut f v ≤ 1 := by
  refine ⟨rfl, ?_, ?_⟩
  · rw [alphaOut, glClamp]
    exact le_min (le_max_right _ _) (by norm_num)
  · rw [alphaOut, glClamp]
    exact min_le_right _ _

end VertSrc
